import Mathlib

/-!
Verification of the Probabilistic Roadmap (PRM) planner
(pyrobosim/navigation/prm.py) against its natural-language specification.

The planner core (PRMPlannerPolygon, PRMPlanner) is embedded from the
source file.  External collaborators that are not part of the provided
source (the search graph, the path type with yaw filling, and the
waypoint reducer) are modelled from the specification, as marked on
each definition.
-/

namespace PRMSpec

/-- A robot pose: continuous (x, y, heading) in world coordinates,
embedded over the integers. -/
structure Pose where
  x : Int
  y : Int
  yaw : Int
deriving DecidableEq, Repr

/-- Modelled from the spec: a graph node wraps a Pose and carries a unique
identity distinct from other nodes even if poses coincide.  The optional
parent reference is unused by PRM logic and omitted. -/
structure Node where
  id : Nat
  pose : Pose
deriving DecidableEq, Repr

/-- Modelled from the spec: the roadmap graph is a set of nodes and a set of
undirected edges over them (pyrobosim SearchGraph, not in the provided
source). -/
structure SearchGraph where
  nodes : List Node
  edges : List (Node × Node)
deriving DecidableEq, Repr

/-- An undirected edge between a and b is present (in either stored
orientation). -/
def SearchGraph.hasEdge (g : SearchGraph) (a b : Node) : Prop :=
  (a, b) ∈ g.edges ∨ (b, a) ∈ g.edges

instance (g : SearchGraph) (a b : Node) : Decidable (g.hasEdge a b) := by
  unfold SearchGraph.hasEdge
  exact inferInstance

/-- Modelled from the spec: addNode; node insertion is idempotent set
insertion. -/
def SearchGraph.add_node (g : SearchGraph) (n : Node) : SearchGraph :=
  if n ∈ g.nodes then g else { g with nodes := g.nodes ++ [n] }

/-- Modelled from the spec: addEdge is idempotent and undirected — the
roadmap tolerates being asked to add an edge twice without creating
parallel edges. -/
def SearchGraph.add_edge (g : SearchGraph) (a b : Node) : SearchGraph :=
  if g.hasEdge a b then g else { g with edges := g.edges ++ [(a, b)] }

/-- Modelled from the spec: removeNode; removal also detaches incident
edges. -/
def SearchGraph.remove_node (g : SearchGraph) (n : Node) : SearchGraph :=
  { nodes := g.nodes.filter (fun m => m != n),
    edges := g.edges.filter (fun e => e.1 != n && e.2 != n) }

/-- Largest node identity present in the graph (0 when empty). -/
def maxId (g : SearchGraph) : Nat :=
  (g.nodes.map Node.id).foldr Nat.max 0

/-- A node identity not used by any member of the graph; models the fresh
object identity of a newly constructed Node. -/
def freshId (g : SearchGraph) : Nat :=
  maxId g + 1

/-- The geometry oracle (world model), external per the spec:
is_connectable answers the bounded connectivity test,
sample_free_robot_pose_uniform yields the i-th sampling attempt, and
collision_free is the segment collision test used by the waypoint
reducer. -/
structure World where
  is_connectable : Pose → Pose → Int → Bool
  sample_free_robot_pose_uniform : Nat → Option Pose
  collision_free : Pose → Pose → Bool

/-- An ordered sequence of Poses; empty on planning failure. -/
structure Path where
  poses : List Pose
deriving DecidableEq, Repr

/-- Modelled from the spec: a heading value derived from a position delta
(an eight-sector discretization standing in for the delta angle). -/
def dirCode (dx dy : Int) : Int :=
  if dx > 0 && dy == 0 then 0
  else if dx > 0 && dy > 0 then 1
  else if dx == 0 && dy > 0 then 2
  else if dx < 0 && dy > 0 then 3
  else if dx < 0 && dy == 0 then 4
  else if dx < 0 && dy < 0 then 5
  else if dx == 0 && dy < 0 then 6
  else if dx > 0 && dy < 0 then 7
  else 0

/-- Interior worker for fillYaws: q is the waypoint being rewritten, and
the final waypoint is left unchanged. -/
def fillYawsGo : Pose → List Pose → List Pose
  | q, [] => [q]
  | q, r :: rest =>
    { q with yaw := dirCode (r.x - q.x) (r.y - q.y) } :: fillYawsGo r rest

/-- Modelled from the spec: Path.fill_yaws derives per-waypoint headings
from consecutive position deltas; the first and last Pose of the path are
preserved (the spec requires the returned first/last Pose to equal the
start/goal Poses). -/
def fillYaws : List Pose → List Pose
  | [] => []
  | [p] => [p]
  | p :: q :: rest => p :: fillYawsGo q rest

/-- Worker for the waypoint reducer: p is the last retained waypoint. -/
def reduceAux (w : World) : Pose → List Pose → List Pose
  | p, [] => [p]
  | p, [q] => [p, q]
  | p, q :: r :: rest =>
    if w.collision_free p r then reduceAux w p (r :: rest)
    else p :: reduceAux w q (r :: rest)
termination_by _ l => l.length

/-- Modelled from the spec: reduce_waypoints_polygon produces a
subsequence of the waypoints, always retaining the first and last, such
that every retained consecutive pair is collision-free per the oracle. -/
def reduce_waypoints_polygon (w : World) : List Pose → List Pose
  | [] => []
  | p :: rest => reduceAux w p rest

/-- First successful result of f over the candidate list. -/
def firstSome (f : Node → Option (List Node)) : List Node → Option (List Node)
  | [] => none
  | n :: rest =>
    match f n with
    | some p => some p
    | none => firstSome f rest

/-- Fuel-bounded depth-first path search avoiding revisits along the
current branch; returns the node sequence from cur to the target when one
exists. -/
def findPathAux (g : SearchGraph) (tgt : Node) : Nat → Node → List Node → Option (List Node)
  | 0, _, _ => none
  | fuel + 1, cur, visited =>
    if cur = tgt then some [cur]
    else
      firstSome (fun n =>
        if g.hasEdge cur n ∧ n ∉ visited then
          (findPathAux g tgt fuel n (cur :: visited)).map (fun p => cur :: p)
        else none) g.nodes

/-- Modelled from the spec: findPath returns an ordered node sequence
from s to t, or the empty sequence exactly when t is unreachable (the
search algorithm itself is an external collaborator; a deterministic
depth-first representative is used). -/
def SearchGraph.find_path (g : SearchGraph) (s t : Node) : List Node :=
  (findPathAux g t (g.nodes.length + 1) s []).getD []

/-- State of the polygon PRM planner: configuration fixed at
construction, the persistent roadmap, and metrics. -/
structure PRMPlannerPolygon where
  compress_path : Bool
  max_connection_dist : Int
  max_nodes : Nat
  graph : SearchGraph
  sampling_time : Int
  planning_time : Int
  latest_path : Path
deriving DecidableEq, Repr

/-- connect_neighbors on the graph: try an edge from node to every other
current graph node approved by the oracle within the connection
distance. -/
def connectNode (w : World) (d : Int) (g : SearchGraph) (node : Node) : SearchGraph :=
  g.nodes.foldl (fun acc other =>
    if node = other then acc
    else if w.is_connectable node.pose other.pose d then acc.add_edge node other
    else acc) g

/-- PRMPlannerPolygon.connect_neighbors: connect a node to all nodes
within connection distance. -/
def PRMPlannerPolygon.connect_neighbors (w : World) (st : PRMPlannerPolygon) (node : Node) :
    PRMPlannerPolygon :=
  { st with graph := connectNode w st.max_connection_dist st.graph node }

/-- The sampling loop of reset: attempt i, with rem attempts remaining;
stops at the first failed sample, reporting the count sampled so far. -/
def sampleAux (w : World) (g : SearchGraph) (i : Nat) : Nat → SearchGraph × Option Nat
  | 0 => (g, none)
  | rem + 1 =>
    match w.sample_free_robot_pose_uniform i with
    | none => (g, some i)
    | some p => sampleAux w (g.add_node { id := freshId g, pose := p }) (i + 1) rem

/-- PRMPlannerPolygon.reset: build a fresh roadmap by sampling up to
max_nodes free configurations and then connecting every node to every
other via connect_neighbors.  The second component is the non-fatal
sampling-underflow diagnostic (the count actually sampled), if any. -/
def PRMPlannerPolygon.reset (w : World) (compress_path : Bool) (max_connection_dist : Int)
    (max_nodes : Nat) (dtSample : Int) : PRMPlannerPolygon × Option Nat :=
  let sampled := sampleAux w { nodes := [], edges := [] } 0 max_nodes
  let g := sampled.1.nodes.foldl (connectNode w max_connection_dist) sampled.1
  ({ compress_path := compress_path,
     max_connection_dist := max_connection_dist,
     max_nodes := max_nodes,
     graph := g,
     sampling_time := dtSample,
     planning_time := 0,
     latest_path := { poses := [] } }, sampled.2)

/-- Polymorphic start/goal argument of plan: a raw Pose or an existing
graph node. -/
inductive PlanInput where
  | pose (p : Pose)
  | node (n : Node)
deriving DecidableEq, Repr

/-- A raw Pose is wrapped as a new Node (fresh identity, no parent); an
existing node is used as given. -/
def resolveInput (g : SearchGraph) : PlanInput → Node
  | .pose p => { id := freshId g, pose := p }
  | .node n => n

/-- The start node created by plan, resolved against the pre-query
graph. -/
def planStart (g : SearchGraph) (startIn : PlanInput) : Node :=
  resolveInput g startIn

/-- The goal node created by plan, resolved after the start node has been
inserted. -/
def planGoal (g : SearchGraph) (startIn goalIn : PlanInput) : Node :=
  resolveInput (g.add_node (planStart g startIn)) goalIn

/-- The roadmap state at query time: start and goal inserted, then each
connected to the current node set (start first — this ordering lets the
goal link directly to the start). -/
def planGraphQ (w : World) (d : Int) (g : SearchGraph) (startIn goalIn : PlanInput) : SearchGraph :=
  let s := planStart g startIn
  let g1 := g.add_node s
  let t := planGoal g startIn goalIn
  let g2 := g1.add_node t
  let g3 := connectNode w d g2 s
  connectNode w d g3 t

/-- The node sequence returned by the shortest-path search inside plan. -/
def planWaypoints (w : World) (d : Int) (g : SearchGraph) (startIn goalIn : PlanInput) :
    List Node :=
  (planGraphQ w d g startIn goalIn).find_path (planStart g startIn) (planGoal g startIn goalIn)

/-- PRMPlannerPolygon.plan: reset the transient output state, insert and
connect start and goal, search, and on failure return the empty path at
once (leaving the query nodes in the roadmap, as the source does); on
success build the (optionally compressed) path, fill yaws, record the
planning time dt, and remove the query nodes.  dt stands for the wall
clock span measured by the source. -/
def PRMPlannerPolygon.plan (w : World) (st : PRMPlannerPolygon) (startIn goalIn : PlanInput)
    (dt : Int) : PRMPlannerPolygon × Path :=
  let st0 := { st with latest_path := { poses := [] }, planning_time := 0 }
  let s := planStart st.graph startIn
  let t := planGoal st.graph startIn goalIn
  let gq := planGraphQ w st.max_connection_dist st.graph startIn goalIn
  let waypoints := gq.find_path s t
  if waypoints = [] then ({ st0 with graph := gq }, st0.latest_path)
  else
    let path_poses := waypoints.map Node.pose
    let path_poses2 := if st.compress_path then reduce_waypoints_polygon w path_poses else path_poses
    let lp : Path := { poses := fillYaws path_poses2 }
    ({ st0 with graph := (gq.remove_node s).remove_node t,
                latest_path := lp, planning_time := dt }, lp)

/-- Configuration surface of the facade; grid is the unsupported roadmap
variant flag. -/
structure PRMPlannerConfig where
  grid : Bool
  compress_path : Bool
  max_connection_dist : Int
  max_nodes : Nat
deriving DecidableEq, Repr

/-- The facade owns exactly one polygon implementation. -/
structure PRMPlanner where
  impl : PRMPlannerPolygon
deriving DecidableEq, Repr

/-- PRMPlanner construction: requesting the grid variant raises
NotImplementedError (embedded as an error value); otherwise the polygon
implementation is built. -/
def PRMPlanner.init (w : World) (cfg : PRMPlannerConfig) (dtSample : Int) :
    Except String PRMPlanner :=
  if cfg.grid then Except.error "Grid based PRM is not supported. "
  else Except.ok
    { impl := (PRMPlannerPolygon.reset w cfg.compress_path cfg.max_connection_dist
        cfg.max_nodes dtSample).1 }

/-- The node sets of two graphs are identical by membership. -/
def nodesEqMem (g h : SearchGraph) : Prop :=
  (∀ n ∈ g.nodes, n ∈ h.nodes) ∧ (∀ n ∈ h.nodes, n ∈ g.nodes)

instance (g h : SearchGraph) : Decidable (nodesEqMem g h) := by
  unfold nodesEqMem
  exact inferInstance

/-- The undirected edge sets of two graphs are identical by membership. -/
def edgesEqMem (g h : SearchGraph) : Prop :=
  (∀ e ∈ g.edges, h.hasEdge e.1 e.2) ∧ (∀ e ∈ h.edges, g.hasEdge e.1 e.2)

instance (g h : SearchGraph) : Decidable (edgesEqMem g h) := by
  unfold edgesEqMem
  exact inferInstance

/-- Graph well-formedness: every edge endpoint is a member node. -/
def WF (g : SearchGraph) : Prop :=
  ∀ e ∈ g.edges, e.1 ∈ g.nodes ∧ e.2 ∈ g.nodes

instance (g : SearchGraph) : Decidable (WF g) := by
  unfold WF
  exact inferInstance

/-- Two node pairs denote the same undirected edge. -/
def sameUnd (u v a b : Node) : Prop :=
  (u = a ∧ v = b) ∨ (u = b ∧ v = a)

/-- One step of the connect_neighbors fold. -/
def connectStep (w : World) (d : Int) (node : Node) (acc : SearchGraph) (other : Node) :
    SearchGraph :=
  if node = other then acc
  else if w.is_connectable node.pose other.pose d then acc.add_edge node other
  else acc

/-- The position (x, y) of a pose, forgetting the heading. -/
def posOf (p : Pose) : Int × Int :=
  (p.x, p.y)

/-! ### Concrete test fixtures (worlds and planner states) -/

/-- A world in which every pair of poses is connectable and the sampler
yields the pose (i, 0, 0) on attempt i. -/
def wAll : World :=
  { is_connectable := fun _ _ _ => true,
    sample_free_robot_pose_uniform := fun i => some { x := Int.ofNat i, y := 0, yaw := 0 },
    collision_free := fun _ _ => true }

/-- A world in which no pair of poses is connectable and sampling always
fails. -/
def wNone : World :=
  { is_connectable := fun _ _ _ => false,
    sample_free_robot_pose_uniform := fun _ => none,
    collision_free := fun _ _ => false }

/-- A world whose connectivity oracle accepts exactly pose pairs at
squared distance at most 1, and whose sampler yields a single pose
(1, 0, 99). -/
def wGeo : World :=
  { is_connectable := fun p q _ =>
      decide ((p.x - q.x) * (p.x - q.x) + (p.y - q.y) * (p.y - q.y) ≤ 1),
    sample_free_robot_pose_uniform := fun i => if i = 0 then some { x := 1, y := 0, yaw := 99 } else none,
    collision_free := fun _ _ => false }

/-- Planner over an empty roadmap (max_nodes = 0). -/
def stE : PRMPlannerPolygon :=
  (PRMPlannerPolygon.reset wNone false 10 0 0).1

/-- Planner over a two-node roadmap with one edge, built in wAll. -/
def stA : PRMPlannerPolygon :=
  (PRMPlannerPolygon.reset wAll false 10 2 0).1

/-- Planner over a one-node roadmap at (1, 0, 99), built in wGeo. -/
def stGeo : PRMPlannerPolygon :=
  (PRMPlannerPolygon.reset wGeo false 2 1 0).1

/-- The first node of stA. -/
def nA1 : Node := { id := 1, pose := { x := 0, y := 0, yaw := 0 } }

/-- The second node of stA. -/
def nA2 : Node := { id := 2, pose := { x := 1, y := 0, yaw := 0 } }

/-- A facade configuration requesting the unsupported grid variant. -/
def cfgGrid : PRMPlannerConfig :=
  { grid := true, compress_path := false, max_connection_dist := 10, max_nodes := 0 }

theorem le_foldr_max (l : List Nat) (x : Nat) (h : x ∈ l) : x ≤ l.foldr Nat.max 0 := by
  induction l with
  | nil => cases h
  | cons a t ih =>
    rcases List.mem_cons.1 h with rfl | h
    · exact Nat.le_max_left _ _
    · exact le_trans (ih h) (Nat.le_max_right _ _)

theorem id_le_maxId (g : SearchGraph) (n : Node) (h : n ∈ g.nodes) : n.id ≤ maxId g :=
  le_foldr_max _ _ (List.mem_map_of_mem Node.id h)

theorem freshId_not_mem (g : SearchGraph) (n : Node) (h : n ∈ g.nodes) : n.id ≠ freshId g := by
  have := id_le_maxId g n h
  unfold freshId
  omega

theorem fresh_node_not_mem (g : SearchGraph) (p : Pose) :
    ({ id := freshId g, pose := p } : Node) ∉ g.nodes := by
  intro h
  exact freshId_not_mem g _ h rfl

theorem add_node_nodes_of_not_mem {g : SearchGraph} {n : Node} (h : n ∉ g.nodes) :
    (g.add_node n).nodes = g.nodes ++ [n] := by
  simp [SearchGraph.add_node, h]

theorem add_node_of_mem {g : SearchGraph} {n : Node} (h : n ∈ g.nodes) :
    g.add_node n = g := by
  simp [SearchGraph.add_node, h]

theorem add_node_edges (g : SearchGraph) (n : Node) : (g.add_node n).edges = g.edges := by
  unfold SearchGraph.add_node
  split <;> rfl

theorem mem_add_node (g : SearchGraph) (n m : Node) :
    m ∈ (g.add_node n).nodes ↔ m ∈ g.nodes ∨ m = n := by
  unfold SearchGraph.add_node
  by_cases h : n ∈ g.nodes
  · rw [if_pos h]
    constructor
    · exact fun hm => Or.inl hm
    · rintro (hm | rfl) <;> [exact hm; exact h]
  · rw [if_neg h]
    simp

theorem add_edge_nodes (g : SearchGraph) (a b : Node) : (g.add_edge a b).nodes = g.nodes := by
  unfold SearchGraph.add_edge
  split <;> rfl

theorem hasEdge_symm {g : SearchGraph} {a b : Node} (h : g.hasEdge a b) : g.hasEdge b a :=
  h.elim Or.inr Or.inl

theorem hasEdge_add_edge (g : SearchGraph) (a b u v : Node) :
    (g.add_edge a b).hasEdge u v ↔ g.hasEdge u v ∨ sameUnd u v a b := by
  unfold SearchGraph.add_edge
  by_cases h : g.hasEdge a b
  · rw [if_pos h]
    constructor
    · exact Or.inl
    · rintro (hg | huv)
      · exact hg
      · rcases huv with ⟨rfl, rfl⟩ | ⟨rfl, rfl⟩
        · exact h
        · exact hasEdge_symm h
  · rw [if_neg h]
    unfold SearchGraph.hasEdge sameUnd
    simp only [List.mem_append, List.mem_singleton, Prod.mk.injEq]
    tauto

theorem add_edge_edges_append (g : SearchGraph) (a b : Node) :
    ∃ tl, (g.add_edge a b).edges = g.edges ++ tl ∧ ∀ e ∈ tl, e = (a, b) := by
  unfold SearchGraph.add_edge
  by_cases h : g.hasEdge a b
  · rw [if_pos h]
    exact ⟨[], by simp⟩
  · rw [if_neg h]
    exact ⟨[(a, b)], rfl, by simp⟩

/-! ### connect_neighbors characterization -/

theorem connectNode_eq_fold (w : World) (d : Int) (g : SearchGraph) (node : Node) :
    connectNode w d g node = g.nodes.foldl (connectStep w d node) g := rfl

theorem connectStep_self (w : World) (d : Int) (node : Node) (acc : SearchGraph)
    (other : Node) (h : node = other) : connectStep w d node acc other = acc := by
  simp [connectStep, h]

theorem connectStep_conn (w : World) (d : Int) (node : Node) (acc : SearchGraph)
    (other : Node) (h1 : node ≠ other) (h2 : w.is_connectable node.pose other.pose d = true) :
    connectStep w d node acc other = acc.add_edge node other := by
  simp [connectStep, h1, h2]

theorem connectStep_skip (w : World) (d : Int) (node : Node) (acc : SearchGraph)
    (other : Node) (h1 : node ≠ other)
    (h2 : ¬ w.is_connectable node.pose other.pose d = true) :
    connectStep w d node acc other = acc := by
  simp [connectStep, h1, h2]

theorem connectStep_nodes (w : World) (d : Int) (node : Node) (acc : SearchGraph)
    (other : Node) : (connectStep w d node acc other).nodes = acc.nodes := by
  unfold connectStep
  split
  · rfl
  · split
    · exact add_edge_nodes _ _ _
    · rfl

theorem connectFold_nodes (w : World) (d : Int) (node : Node) (l : List Node)
    (acc : SearchGraph) : (l.foldl (connectStep w d node) acc).nodes = acc.nodes := by
  induction l generalizing acc with
  | nil => rfl
  | cons a t ih => rw [List.foldl_cons, ih, connectStep_nodes]

theorem connectNode_nodes (w : World) (d : Int) (g : SearchGraph) (node : Node) :
    (connectNode w d g node).nodes = g.nodes :=
  connectFold_nodes w d node g.nodes g

theorem connectFold_edges_append (w : World) (d : Int) (node : Node) (l : List Node)
    (acc : SearchGraph) :
    ∃ tl, (l.foldl (connectStep w d node) acc).edges = acc.edges ++ tl ∧
      ∀ e ∈ tl, e.1 = node := by
  induction l generalizing acc with
  | nil => exact ⟨[], by simp⟩
  | cons a t ih =>
    rw [List.foldl_cons]
    by_cases h1 : node = a
    · rw [connectStep_self w d node acc a h1]
      exact ih acc
    · by_cases h2 : w.is_connectable node.pose a.pose d = true
      · rw [connectStep_conn w d node acc a h1 h2]
        obtain ⟨tl0, htl0, hm0⟩ := add_edge_edges_append acc node a
        obtain ⟨tl, htl, hmem⟩ := ih (acc.add_edge node a)
        refine ⟨tl0 ++ tl, by rw [htl, htl0, List.append_assoc], ?_⟩
        intro e he
        rcases List.mem_append.1 he with he | he
        · rw [hm0 e he]
        · exact hmem e he
      · rw [connectStep_skip w d node acc a h1 h2]
        exact ih acc

theorem connectNode_edges_append (w : World) (d : Int) (g : SearchGraph) (node : Node) :
    ∃ tl, (connectNode w d g node).edges = g.edges ++ tl ∧ ∀ e ∈ tl, e.1 = node :=
  connectFold_edges_append w d node g.nodes g

theorem hasEdge_connectFold (w : World) (d : Int) (node : Node) (l : List Node)
    (acc : SearchGraph) (u v : Node) :
    (l.foldl (connectStep w d node) acc).hasEdge u v ↔
      acc.hasEdge u v ∨ ∃ o ∈ l, o ≠ node ∧
        w.is_connectable node.pose o.pose d = true ∧ sameUnd u v node o := by
  induction l generalizing acc with
  | nil => simp
  | cons a t ih =>
    rw [List.foldl_cons]
    by_cases h1 : node = a
    · rw [connectStep_self w d node acc a h1, ih]
      subst h1
      constructor
      · rintro (h | ⟨o, ho, hon, hc, hs⟩)
        · exact Or.inl h
        · exact Or.inr ⟨o, List.mem_cons_of_mem _ ho, hon, hc, hs⟩
      · rintro (h | ⟨o, ho, hon, hc, hs⟩)
        · exact Or.inl h
        · rcases List.mem_cons.1 ho with rfl | ho
          · exact absurd rfl hon
          · exact Or.inr ⟨o, ho, hon, hc, hs⟩
    · by_cases h2 : w.is_connectable node.pose a.pose d = true
      · rw [connectStep_conn w d node acc a h1 h2, ih, hasEdge_add_edge]
        constructor
        · rintro ((h | hs) | ⟨o, ho, hon, hc, hs⟩)
          · exact Or.inl h
          · exact Or.inr ⟨a, List.mem_cons_self _ _, fun he => h1 he.symm, h2, hs⟩
          · exact Or.inr ⟨o, List.mem_cons_of_mem _ ho, hon, hc, hs⟩
        · rintro (h | ⟨o, ho, hon, hc, hs⟩)
          · exact Or.inl (Or.inl h)
          · rcases List.mem_cons.1 ho with rfl | ho
            · exact Or.inl (Or.inr hs)
            · exact Or.inr ⟨o, ho, hon, hc, hs⟩
      · rw [connectStep_skip w d node acc a h1 h2, ih]
        constructor
        · rintro (h | ⟨o, ho, hon, hc, hs⟩)
          · exact Or.inl h
          · exact Or.inr ⟨o, List.mem_cons_of_mem _ ho, hon, hc, hs⟩
        · rintro (h | ⟨o, ho, hon, hc, hs⟩)
          · exact Or.inl h
          · rcases List.mem_cons.1 ho with rfl | ho
            · exact absurd hc h2
            · exact Or.inr ⟨o, ho, hon, hc, hs⟩

theorem hasEdge_connectNode (w : World) (d : Int) (g : SearchGraph) (node u v : Node) :
    (connectNode w d g node).hasEdge u v ↔
      g.hasEdge u v ∨ ∃ o ∈ g.nodes, o ≠ node ∧
        w.is_connectable node.pose o.pose d = true ∧ sameUnd u v node o :=
  hasEdge_connectFold w d node g.nodes g u v

/-! ### Well-formedness preservation and node removal -/

theorem filter_ne_self {l : List Node} {n : Node} (h : n ∉ l) :
    l.filter (fun m => m != n) = l :=
  List.filter_eq_self.2 fun m hm => by
    rw [bne_iff_ne]
    rintro rfl
    exact h hm

theorem edges_filter_self {g : SearchGraph} (hwf : WF g) {n : Node} (h : n ∉ g.nodes) :
    g.edges.filter (fun e => e.1 != n && e.2 != n) = g.edges :=
  List.filter_eq_self.2 fun e he => by
    obtain ⟨h1, h2⟩ := hwf e he
    rw [Bool.and_eq_true, bne_iff_ne, bne_iff_ne]
    exact ⟨fun hh => h (hh ▸ h1), fun hh => h (hh ▸ h2)⟩

theorem mem_remove_node (g : SearchGraph) (n m : Node) :
    m ∈ (g.remove_node n).nodes ↔ m ∈ g.nodes ∧ m ≠ n := by
  simp [SearchGraph.remove_node, List.mem_filter, bne_iff_ne]

theorem mem_remove_node_edges (g : SearchGraph) (n : Node) (e : Node × Node) :
    e ∈ (g.remove_node n).edges ↔ e ∈ g.edges ∧ e.1 ≠ n ∧ e.2 ≠ n := by
  simp [SearchGraph.remove_node, List.mem_filter, bne_iff_ne]

/-- Removing two freshly inserted query nodes restores the original graph
exactly, provided all added edges were incident to them. -/
theorem remove_two_restore {g G2 : SearchGraph} (hwf : WF g) {s t : Node}
    (hs : s ∉ g.nodes) (ht : t ∉ g.nodes) (hst : s ≠ t)
    (hn : G2.nodes = g.nodes ++ [s, t])
    (he : ∃ tl, G2.edges = g.edges ++ tl ∧ ∀ e ∈ tl, e.1 = s ∨ e.1 = t) :
    (G2.remove_node s).remove_node t = g := by
  obtain ⟨tl, htl, hm⟩ := he
  have hnodes : ((G2.remove_node s).remove_node t).nodes = g.nodes := by
    show ((G2.nodes.filter (fun m => m != s)).filter (fun m => m != t)) = g.nodes
    rw [hn, List.filter_append, List.filter_append, filter_ne_self hs]
    have h2 : ([s, t].filter (fun m => m != s)) = [t] := by
      have hts : (t != s) = true := by
        rw [bne_iff_ne]
        exact fun hh => hst hh.symm
      simp [hts]
    rw [h2, filter_ne_self ht]
    have h3 : ([t].filter (fun m => m != t)) = [] := by simp
    rw [h3, List.append_nil]
  have hedges : ((G2.remove_node s).remove_node t).edges = g.edges := by
    show ((G2.edges.filter (fun e => e.1 != s && e.2 != s)).filter
      (fun e => e.1 != t && e.2 != t)) = g.edges
    rw [htl, List.filter_append, List.filter_append, edges_filter_self hwf hs,
      edges_filter_self hwf ht]
    have h4 : ((tl.filter (fun e => e.1 != s && e.2 != s)).filter
        (fun e => e.1 != t && e.2 != t)) = [] := by
      rw [List.filter_eq_nil_iff]
      intro e hme
      obtain ⟨hetl, hp1⟩ := List.mem_filter.1 hme
      rw [Bool.and_eq_true, bne_iff_ne, bne_iff_ne] at hp1
      have he1 : e.1 = t := (hm e hetl).resolve_left hp1.1
      rw [Bool.and_eq_true, bne_iff_ne]
      rintro ⟨hc, -⟩
      exact hc he1
    rw [h4, List.append_nil]
  cases hgoal : (G2.remove_node s).remove_node t with
  | mk ns es =>
    rw [hgoal] at hnodes hedges
    cases g with
    | mk gn ge =>
      simp only at hnodes hedges
      rw [hnodes, hedges]

/-! ### plan staging lemmas -/

/-- plan unfolded into its failure and success outcomes. -/
theorem plan_def (w : World) (st : PRMPlannerPolygon) (startIn goalIn : PlanInput) (dt : Int) :
    st.plan w startIn goalIn dt =
      if planWaypoints w st.max_connection_dist st.graph startIn goalIn = [] then
        ({ st with latest_path := { poses := [] }, planning_time := 0,
                   graph := planGraphQ w st.max_connection_dist st.graph startIn goalIn },
         { poses := [] })
      else
        ({ st with
            latest_path := { poses := fillYaws (if st.compress_path then
              reduce_waypoints_polygon w
                ((planWaypoints w st.max_connection_dist st.graph startIn goalIn).map Node.pose)
              else (planWaypoints w st.max_connection_dist st.graph startIn goalIn).map Node.pose) },
            planning_time := dt,
            graph := ((planGraphQ w st.max_connection_dist st.graph startIn goalIn).remove_node
                (planStart st.graph startIn)).remove_node (planGoal st.graph startIn goalIn) },
         { poses := fillYaws (if st.compress_path then
              reduce_waypoints_polygon w
                ((planWaypoints w st.max_connection_dist st.graph startIn goalIn).map Node.pose)
              else (planWaypoints w st.max_connection_dist st.graph startIn goalIn).map Node.pose) }) := by
  rfl

theorem planStart_pose_not_mem (g : SearchGraph) (ps : Pose) :
    planStart g (.pose ps) ∉ g.nodes :=
  fresh_node_not_mem g ps

theorem planGoal_pose_not_mem (g : SearchGraph) (startIn : PlanInput) (pg : Pose) :
    planGoal g startIn (.pose pg) ∉ (g.add_node (planStart g startIn)).nodes :=
  fresh_node_not_mem _ pg

theorem planGoal_pose_not_mem_base (g : SearchGraph) (startIn : PlanInput) (pg : Pose) :
    planGoal g startIn (.pose pg) ∉ g.nodes := by
  intro h
  exact planGoal_pose_not_mem g startIn pg ((mem_add_node _ _ _).2 (Or.inl h))

theorem planGoal_pose_ne_start (g : SearchGraph) (startIn : PlanInput) (pg : Pose) :
    planGoal g startIn (.pose pg) ≠ planStart g startIn := by
  intro h
  exact planGoal_pose_not_mem g startIn pg
    (h ▸ (mem_add_node _ _ _).2 (Or.inr rfl))

theorem planGraphQ_nodes_pose (w : World) (d : Int) (g : SearchGraph) (ps pg : Pose) :
    (planGraphQ w d g (.pose ps) (.pose pg)).nodes =
      g.nodes ++ [planStart g (.pose ps), planGoal g (.pose ps) (.pose pg)] := by
  unfold planGraphQ
  rw [connectNode_nodes, connectNode_nodes]
  rw [add_node_nodes_of_not_mem (planGoal_pose_not_mem g (.pose ps) pg),
    add_node_nodes_of_not_mem (planStart_pose_not_mem g ps)]
  simp

theorem planGraphQ_edges_append (w : World) (d : Int) (g : SearchGraph)
    (startIn goalIn : PlanInput) :
    ∃ tl, (planGraphQ w d g startIn goalIn).edges = g.edges ++ tl ∧
      ∀ e ∈ tl, e.1 = planStart g startIn ∨ e.1 = planGoal g startIn goalIn := by
  unfold planGraphQ
  obtain ⟨tl1, h1, hm1⟩ := connectNode_edges_append w d
    ((g.add_node (planStart g startIn)).add_node (planGoal g startIn goalIn))
    (planStart g startIn)
  obtain ⟨tl2, h2, hm2⟩ := connectNode_edges_append w d
    (connectNode w d ((g.add_node (planStart g startIn)).add_node (planGoal g startIn goalIn))
      (planStart g startIn))
    (planGoal g startIn goalIn)
  refine ⟨tl1 ++ tl2, ?_, ?_⟩
  · rw [h2, h1, add_node_edges, add_node_edges, List.append_assoc]
  · intro e he
    rcases List.mem_append.1 he with he | he
    · exact Or.inl (hm1 e he)
    · exact Or.inr (hm2 e he)

/-- On a successful query with raw-Pose inputs, plan restores the roadmap
to exactly its pre-query value. -/
theorem plan_success_graph_restored (w : World) (st : PRMPlannerPolygon) (ps pg : Pose)
    (dt : Int) (hwf : WF st.graph)
    (h : planWaypoints w st.max_connection_dist st.graph (.pose ps) (.pose pg) ≠ []) :
    (st.plan w (.pose ps) (.pose pg) dt).1.graph = st.graph := by
  rw [plan_def, if_neg h]
  exact remove_two_restore hwf (planStart_pose_not_mem st.graph ps)
    (planGoal_pose_not_mem_base st.graph (.pose ps) pg)
    (Ne.symm (planGoal_pose_ne_start st.graph (.pose ps) pg))
    (planGraphQ_nodes_pose w st.max_connection_dist st.graph ps pg)
    (planGraphQ_edges_append w st.max_connection_dist st.graph (.pose ps) (.pose pg))

/-- On a failed query the roadmap is left in its query-time state: the
transient nodes are not removed (the early return of the source). -/
theorem plan_fail_graph (w : World) (st : PRMPlannerPolygon) (startIn goalIn : PlanInput)
    (dt : Int)
    (h : planWaypoints w st.max_connection_dist st.graph startIn goalIn = []) :
    (st.plan w startIn goalIn dt).1.graph =
      planGraphQ w st.max_connection_dist st.graph startIn goalIn := by
  rw [plan_def, if_pos h]

theorem nodesEqMem_of_eq {g h : SearchGraph} (e : g = h) : nodesEqMem g h := by
  subst e
  exact ⟨fun n hn => hn, fun n hn => hn⟩

theorem edgesEqMem_of_eq {g h : SearchGraph} (e : g = h) : edgesEqMem g h := by
  subst e
  exact ⟨fun e he => Or.inl he, fun e he => Or.inl he⟩

/-! ### Sampling loop characterization -/

theorem connectNode_foldl_nodes (w : World) (d : Int) (l : List Node) (acc : SearchGraph) :
    (l.foldl (connectNode w d) acc).nodes = acc.nodes := by
  induction l generalizing acc with
  | nil => rfl
  | cons a t ih => rw [List.foldl_cons, ih, connectNode_nodes]

theorem sampleAux_spec (w : World) : ∀ (rem : Nat) (g : SearchGraph) (i : Nat),
    ((sampleAux w g i rem).1.nodes.length ≤ g.nodes.length + rem) ∧
    ((∀ j, j < rem → (w.sample_free_robot_pose_uniform (i + j)).isSome) →
      (sampleAux w g i rem).1.nodes.length = g.nodes.length + rem ∧
        (sampleAux w g i rem).2 = none) ∧
    (∀ k, k < rem → w.sample_free_robot_pose_uniform (i + k) = none →
      (∀ j, j < k → (w.sample_free_robot_pose_uniform (i + j)).isSome) →
      (sampleAux w g i rem).1.nodes.length = g.nodes.length + k ∧
        (sampleAux w g i rem).2 = some (i + k)) := by
  intro rem
  induction rem with
  | zero =>
    intro g i
    refine ⟨Nat.le_refl _, fun _ => ⟨rfl, rfl⟩, ?_⟩
    intro k hk
    exact absurd hk (Nat.not_lt_zero k)
  | succ rem ih =>
    intro g i
    have h0 : sampleAux w g i (rem + 1) =
        match w.sample_free_robot_pose_uniform i with
        | none => (g, some i)
        | some p => sampleAux w (g.add_node { id := freshId g, pose := p }) (i + 1) rem := rfl
    cases hs : w.sample_free_robot_pose_uniform i with
    | none =>
      have e1 : (sampleAux w g i (rem + 1)).1 = g := by rw [h0, hs]
      have e2 : (sampleAux w g i (rem + 1)).2 = some i := by rw [h0, hs]
      rw [e1, e2]
      refine ⟨by omega, ?_, ?_⟩
      · intro hall
        exfalso
        have h1 := hall 0 (Nat.succ_pos rem)
        rw [Nat.add_zero, hs] at h1
        exact Bool.noConfusion h1
      · intro k hk hnone hbefore
        have hk0 : k = 0 := by
          by_contra hne
          have h1 := hbefore 0 (Nat.pos_of_ne_zero hne)
          rw [Nat.add_zero, hs] at h1
          exact Bool.noConfusion h1
        subst hk0
        exact ⟨by omega, by rw [Nat.add_zero]⟩
    | some p =>
      have hred : sampleAux w g i (rem + 1) =
          sampleAux w (g.add_node { id := freshId g, pose := p }) (i + 1) rem := by
        rw [h0, hs]
      have hlen : (g.add_node { id := freshId g, pose := p }).nodes.length =
          g.nodes.length + 1 := by
        rw [add_node_nodes_of_not_mem (fresh_node_not_mem g p), List.length_append]
        rfl
      obtain ⟨ha, hb, hc⟩ := ih (g.add_node { id := freshId g, pose := p }) (i + 1)
      rw [hred]
      refine ⟨by omega, ?_, ?_⟩
      · intro hall
        have h1 := hb (fun j hj => by
          have h2 := hall (j + 1) (by omega)
          rwa [show i + (j + 1) = i + 1 + j by omega] at h2)
        exact ⟨by omega, h1.2⟩
      · intro k hk hnone hbefore
        cases k with
        | zero =>
          rw [Nat.add_zero] at hnone
          rw [hnone] at hs
          exact Option.noConfusion hs
        | succ k =>
          have h1 := hc k (by omega)
            (by rwa [show i + 1 + k = i + (k + 1) by omega])
            (fun j hj => by
              have h2 := hbefore (j + 1) (by omega)
              rwa [show i + (j + 1) = i + 1 + j by omega] at h2)
          refine ⟨by omega, ?_⟩
          rw [h1.2]
          congr 1
          omega

theorem sampleAux_edges (w : World) : ∀ (rem : Nat) (g : SearchGraph) (i : Nat),
    (sampleAux w g i rem).1.edges = g.edges := by
  intro rem
  induction rem with
  | zero => intro g i; rfl
  | succ rem ih =>
    intro g i
    have h0 : sampleAux w g i (rem + 1) =
        match w.sample_free_robot_pose_uniform i with
        | none => (g, some i)
        | some p => sampleAux w (g.add_node { id := freshId g, pose := p }) (i + 1) rem := rfl
    cases hs : w.sample_free_robot_pose_uniform i with
    | none => rw [h0, hs]
    | some p =>
      have hred : (sampleAux w g i (rem + 1)).1.edges =
          (sampleAux w (g.add_node { id := freshId g, pose := p }) (i + 1) rem).1.edges := by
        rw [h0, hs]
      rw [hred, ih, add_node_edges]

theorem hasEdge_connectNode_foldl (w : World) (d : Int) (L : List Node) (acc : SearchGraph)
    (u v : Node) :
    (L.foldl (connectNode w d) acc).hasEdge u v ↔
      acc.hasEdge u v ∨ ∃ n ∈ L, ∃ o ∈ acc.nodes, o ≠ n ∧
        w.is_connectable n.pose o.pose d = true ∧ sameUnd u v n o := by
  induction L generalizing acc with
  | nil => simp
  | cons a t ih =>
    rw [List.foldl_cons, ih, connectNode_nodes, hasEdge_connectNode]
    constructor
    · rintro ((h | ⟨o, ho, hon, hc, hs⟩) | ⟨n, hn, o, ho, hon, hc, hs⟩)
      · exact Or.inl h
      · exact Or.inr ⟨a, List.mem_cons_self _ _, o, ho, hon, hc, hs⟩
      · exact Or.inr ⟨n, List.mem_cons_of_mem _ hn, o, ho, hon, hc, hs⟩
    · rintro (h | ⟨n, hn, o, ho, hon, hc, hs⟩)
      · exact Or.inl (Or.inl h)
      · rcases List.mem_cons.1 hn with rfl | hn
        · exact Or.inl (Or.inr ⟨o, ho, hon, hc, hs⟩)
        · exact Or.inr ⟨n, hn, o, ho, hon, hc, hs⟩

theorem reset_graph_nodes (w : World) (c : Bool) (d dts : Int) (N : Nat) :
    (PRMPlannerPolygon.reset w c d N dts).1.graph.nodes =
      (sampleAux w { nodes := [], edges := [] } 0 N).1.nodes :=
  connectNode_foldl_nodes w d
    (sampleAux w { nodes := [], edges := [] } 0 N).1.nodes
    (sampleAux w { nodes := [], edges := [] } 0 N).1

theorem reset_diag (w : World) (c : Bool) (d dts : Int) (N : Nat) :
    (PRMPlannerPolygon.reset w c d N dts).2 =
      (sampleAux w { nodes := [], edges := [] } 0 N).2 := rfl

/-! ### Claim theorems -/

theorem reset_graph_eq (w : World) (c : Bool) (d dts : Int) (N : Nat) :
    (PRMPlannerPolygon.reset w c d N dts).1.graph =
      (sampleAux w { nodes := [], edges := [] } 0 N).1.nodes.foldl
        (connectNode w d) (sampleAux w { nodes := [], edges := [] } 0 N).1 := rfl

/-- C4: after building, for distinct roadmap nodes a and b an edge
exists iff the oracle accepts the pair (the oracle being symmetric, as
its geometric contract guarantees); no self-loop edge is ever created.
Connection is decided against the final node set: the criterion below
mentions only oracle results on the final nodes, not sampling order. -/
theorem C4_build_edges_iff (w : World) (c : Bool) (d dts : Int) (N : Nat)
    (hsym : ∀ p q : Pose, w.is_connectable p q d = w.is_connectable q p d) :
    (∀ a ∈ (PRMPlannerPolygon.reset w c d N dts).1.graph.nodes,
      ∀ b ∈ (PRMPlannerPolygon.reset w c d N dts).1.graph.nodes, a ≠ b →
        ((PRMPlannerPolygon.reset w c d N dts).1.graph.hasEdge a b ↔
          w.is_connectable a.pose b.pose d = true)) ∧
    (∀ a : Node, ¬ (PRMPlannerPolygon.reset w c d N dts).1.graph.hasEdge a a) := by
  rw [reset_graph_eq]
  have hedges : (sampleAux w { nodes := [], edges := [] } 0 N).1.edges = [] :=
    sampleAux_edges w N _ 0
  have hbase : ∀ u v : Node, ¬ (sampleAux w { nodes := [], edges := [] } 0 N).1.hasEdge u v := by
    intro u v h
    rcases h with h | h <;> (rw [hedges] at h; exact List.not_mem_nil _ h)
  have hnodes := connectNode_foldl_nodes w d
    (sampleAux w { nodes := [], edges := [] } 0 N).1.nodes
    (sampleAux w { nodes := [], edges := [] } 0 N).1
  constructor
  · intro a ha b hb hab
    rw [hnodes] at ha hb
    rw [hasEdge_connectNode_foldl]
    constructor
    · rintro (h | ⟨n, hn, o, ho, hon, hc, hs⟩)
      · exact absurd h (hbase a b)
      · rcases hs with ⟨rfl, rfl⟩ | ⟨rfl, rfl⟩
        · exact hc
        · rw [hsym a.pose b.pose]
          exact hc
    · intro hc
      exact Or.inr ⟨a, ha, b, hb, Ne.symm hab, hc, Or.inl ⟨rfl, rfl⟩⟩
  · intro a h
    rw [hasEdge_connectNode_foldl] at h
    rcases h with h | ⟨n, hn, o, ho, hon, hc, hs⟩
    · exact hbase a a h
    · rcases hs with ⟨rfl, rfl⟩ | ⟨rfl, rfl⟩ <;> exact hon rfl

/-- Witness for C4 over a concrete symmetric world and a two-node
build. -/
theorem C4_build_edges_iff_witness :
    (∀ p q : Pose, wAll.is_connectable p q 10 = wAll.is_connectable q p 10) ∧
      ((∀ a ∈ (PRMPlannerPolygon.reset wAll false 10 2 0).1.graph.nodes,
        ∀ b ∈ (PRMPlannerPolygon.reset wAll false 10 2 0).1.graph.nodes, a ≠ b →
          ((PRMPlannerPolygon.reset wAll false 10 2 0).1.graph.hasEdge a b ↔
            wAll.is_connectable a.pose b.pose 10 = true)) ∧
      (∀ a : Node, ¬ (PRMPlannerPolygon.reset wAll false 10 2 0).1.graph.hasEdge a a)) :=
  ⟨fun _ _ => rfl, C4_build_edges_iff wAll false 10 0 2 (fun _ _ => rfl)⟩

/-! ### Path search: soundness and completeness -/

theorem fillYawsGo_map_posOf (q : Pose) (l : List Pose) :
    (fillYawsGo q l).map posOf = posOf q :: l.map posOf := by
  induction l generalizing q with
  | nil => rfl
  | cons r rest ih =>
    show posOf { q with yaw := dirCode (r.x - q.x) (r.y - q.y) } ::
      (fillYawsGo r rest).map posOf = posOf q :: posOf r :: rest.map posOf
    rw [ih]
    rfl

theorem fillYaws_map_posOf (l : List Pose) : (fillYaws l).map posOf = l.map posOf := by
  match l with
  | [] => rfl
  | [p] => rfl
  | p :: q :: rest =>
    show posOf p :: (fillYawsGo q rest).map posOf = posOf p :: posOf q :: rest.map posOf
    rw [fillYawsGo_map_posOf]

theorem fillYaws_length (l : List Pose) : (fillYaws l).length = l.length := by
  have h := fillYaws_map_posOf l
  have h1 : ((fillYaws l).map posOf).length = (l.map posOf).length := by rw [h]
  simpa using h1

theorem fillYaws_head (l : List Pose) : (fillYaws l).head? = l.head? := by
  match l with
  | [] => rfl
  | [p] => rfl
  | p :: q :: rest => rfl

theorem fillYawsGo_ne_nil (q : Pose) (l : List Pose) : fillYawsGo q l ≠ [] := by
  cases l <;> simp [fillYawsGo]

theorem fillYawsGo_getLast (q : Pose) (l : List Pose) :
    (fillYawsGo q l).getLast? = (q :: l).getLast? := by
  induction l generalizing q with
  | nil => rfl
  | cons r rest ih =>
    show ({ q with yaw := dirCode (r.x - q.x) (r.y - q.y) } ::
      fillYawsGo r rest).getLast? = (q :: r :: rest).getLast?
    cases hfg : fillYawsGo r rest with
    | nil => exact absurd hfg (fillYawsGo_ne_nil r rest)
    | cons x xs =>
      rw [List.getLast?_cons_cons, ← hfg, ih, List.getLast?_cons_cons]

theorem fillYaws_getLast (l : List Pose) : (fillYaws l).getLast? = l.getLast? := by
  match l with
  | [] => rfl
  | [p] => rfl
  | p :: q :: rest =>
    show (p :: fillYawsGo q rest).getLast? = (p :: q :: rest).getLast?
    cases hfg : fillYawsGo q rest with
    | nil => exact absurd hfg (fillYawsGo_ne_nil q rest)
    | cons x xs =>
      rw [List.getLast?_cons_cons, ← hfg, fillYawsGo_getLast, List.getLast?_cons_cons]

/-- C6 (amended): with compress_path disabled, a successful query
returns the search's node pose sequence with interior headings refilled
from consecutive position deltas: the pose list is fillYaws of the node
poses — same length and order, identical positions throughout, and the
first and last Pose preserved exactly.  (The headings of interior
waypoints are overwritten, so the sequence is not returned entirely
unmodified.) -/
theorem C6_uncompressed_path_poses (w : World) (st : PRMPlannerPolygon)
    (startIn goalIn : PlanInput) (dt : Int)
    (hc : st.compress_path = false)
    (hsucc : planWaypoints w st.max_connection_dist st.graph startIn goalIn ≠ []) :
    (st.plan w startIn goalIn dt).2.poses =
        fillYaws ((planWaypoints w st.max_connection_dist st.graph startIn goalIn).map
          Node.pose) ∧
      (st.plan w startIn goalIn dt).2.poses.map posOf =
        (planWaypoints w st.max_connection_dist st.graph startIn goalIn).map
          (fun n => posOf n.pose) ∧
      (st.plan w startIn goalIn dt).2.poses.length =
        (planWaypoints w st.max_connection_dist st.graph startIn goalIn).length ∧
      (st.plan w startIn goalIn dt).2.poses.head? =
        ((planWaypoints w st.max_connection_dist st.graph startIn goalIn).map
          Node.pose).head? ∧
      (st.plan w startIn goalIn dt).2.poses.getLast? =
        ((planWaypoints w st.max_connection_dist st.graph startIn goalIn).map
          Node.pose).getLast? := by
  rw [plan_def, if_neg hsucc, hc]
  simp only [Bool.false_eq_true, if_false]
  refine ⟨trivial, ?_, ?_, ?_, ?_⟩
  · rw [fillYaws_map_posOf, List.map_map]
    rfl
  · rw [fillYaws_length, List.length_map]
  · rw [fillYaws_head]
  · rw [fillYaws_getLast]

/-- Witness for C6 at a concrete successful uncompressed query. -/
theorem C6_uncompressed_path_poses_witness :
    stGeo.compress_path = false ∧
      planWaypoints wGeo stGeo.max_connection_dist stGeo.graph
        (.pose { x := 0, y := 0, yaw := 5 }) (.pose { x := 2, y := 0, yaw := 7 }) ≠ [] ∧
      (stGeo.plan wGeo (.pose { x := 0, y := 0, yaw := 5 })
          (.pose { x := 2, y := 0, yaw := 7 }) 1).2.poses =
        fillYaws ((planWaypoints wGeo stGeo.max_connection_dist stGeo.graph
          (.pose { x := 0, y := 0, yaw := 5 })
          (.pose { x := 2, y := 0, yaw := 7 })).map Node.pose) :=
  ⟨by decide, by decide,
    (C6_uncompressed_path_poses wGeo stGeo (.pose { x := 0, y := 0, yaw := 5 })
      (.pose { x := 2, y := 0, yaw := 7 }) 1 (by decide) (by decide)).1⟩

/-- Counterexample to C6 as stated: on a successful three-waypoint query
the returned poses differ from the search's node poses (the interior
heading 99 is overwritten by the derived heading), so the sequence is
not returned unmodified. -/
theorem C6_counterexample :
    stGeo.compress_path = false ∧
      planWaypoints wGeo stGeo.max_connection_dist stGeo.graph
        (.pose { x := 0, y := 0, yaw := 5 }) (.pose { x := 2, y := 0, yaw := 7 }) ≠ [] ∧
      (stGeo.plan wGeo (.pose { x := 0, y := 0, yaw := 5 })
          (.pose { x := 2, y := 0, yaw := 7 }) 2).2.poses ≠
        (planWaypoints wGeo stGeo.max_connection_dist stGeo.graph
          (.pose { x := 0, y := 0, yaw := 5 })
          (.pose { x := 2, y := 0, yaw := 7 })).map Node.pose := by
  decide

/-- The query over an empty roadmap yields exactly the start and goal
query nodes as waypoints when the oracle connects them both ways. -/
theorem hway_empty (w : World) (d : Int) (ps pg : Pose)
    (h1 : w.is_connectable ps pg d = true) (h2 : w.is_connectable pg ps d = true) :
    planWaypoints w d { nodes := [], edges := [] } (.pose ps) (.pose pg) =
      [{ id := 1, pose := ps }, { id := 2, pose := pg }] := by
  have hs : planStart { nodes := [], edges := [] } (PlanInput.pose ps) =
      { id := 1, pose := ps } := rfl
  have ht : planGoal { nodes := [], edges := [] } (PlanInput.pose ps) (PlanInput.pose pg) =
      { id := 2, pose := pg } := rfl
  unfold planWaypoints planGraphQ
  rw [hs, ht]
  simp [SearchGraph.add_node, connectNode, SearchGraph.add_edge, SearchGraph.hasEdge,
    h1, h2, SearchGraph.find_path, findPathAux, firstSome, Node.mk.injEq]

/-- C7: with an empty persistent roadmap (max_nodes = 0) and an oracle
reporting start and goal mutually connectable, plan returns the two-Pose
Path [start, goal]: goal's connection pass runs after start has been
inserted, so the direct start-goal edge exists. -/
theorem C7_empty_roadmap_two_pose (w : World) (c : Bool) (d dts dt : Int) (ps pg : Pose)
    (h1 : w.is_connectable ps pg d = true) (h2 : w.is_connectable pg ps d = true) :
    ((PRMPlannerPolygon.reset w c d 0 dts).1.plan w (.pose ps) (.pose pg) dt).2 =
      { poses := [ps, pg] } := by
  have hg : (PRMPlannerPolygon.reset w c d 0 dts).1.graph = { nodes := [], edges := [] } := rfl
  have hd : (PRMPlannerPolygon.reset w c d 0 dts).1.max_connection_dist = d := rfl
  have hcp : (PRMPlannerPolygon.reset w c d 0 dts).1.compress_path = c := rfl
  rw [plan_def, hg, hd, hcp, hway_empty w d ps pg h1 h2]
  simp [reduce_waypoints_polygon, reduceAux, fillYaws, fillYawsGo, ite_self]

/-- Witness for C7 at a concrete mutually connectable pair. -/
theorem C7_empty_roadmap_two_pose_witness :
    wAll.is_connectable { x := 4, y := 0, yaw := 1 } { x := 5, y := 0, yaw := 2 } 10 = true ∧
      wAll.is_connectable { x := 5, y := 0, yaw := 2 } { x := 4, y := 0, yaw := 1 } 10 = true ∧
      ((PRMPlannerPolygon.reset wAll false 10 0 0).1.plan wAll
          (.pose { x := 4, y := 0, yaw := 1 }) (.pose { x := 5, y := 0, yaw := 2 }) 4).2 =
        { poses := [{ x := 4, y := 0, yaw := 1 }, { x := 5, y := 0, yaw := 2 }] } :=
  ⟨rfl, rfl,
    C7_empty_roadmap_two_pose wAll false 10 0 4 { x := 4, y := 0, yaw := 1 }
      { x := 5, y := 0, yaw := 2 } rfl rfl⟩

/-- C5: the built roadmap has at most max_nodes nodes; it has exactly
max_nodes and no diagnostic when every sampling attempt succeeds, and
when attempt i is the first failure (i < max_nodes), building stops
immediately with exactly i nodes and the non-fatal diagnostic reports
the count i actually sampled. -/
theorem C5_build_node_count (w : World) (c : Bool) (d dts : Int) (N : Nat) :
    ((PRMPlannerPolygon.reset w c d N dts).1.graph.nodes.length ≤ N) ∧
    ((∀ i, i < N → (w.sample_free_robot_pose_uniform i).isSome) →
      (PRMPlannerPolygon.reset w c d N dts).1.graph.nodes.length = N ∧
        (PRMPlannerPolygon.reset w c d N dts).2 = none) ∧
    (∀ i, i < N → w.sample_free_robot_pose_uniform i = none →
      (∀ j, j < i → (w.sample_free_robot_pose_uniform j).isSome) →
      (PRMPlannerPolygon.reset w c d N dts).1.graph.nodes.length = i ∧
        (PRMPlannerPolygon.reset w c d N dts).2 = some i) := by
  obtain ⟨ha, hb, hc⟩ := sampleAux_spec w N { nodes := [], edges := [] } 0
  rw [reset_graph_nodes, reset_diag]
  refine ⟨by simpa using ha, ?_, ?_⟩
  · intro hall
    have h1 := hb (fun j hj => by simpa using hall j hj)
    simpa using h1
  · intro i hi hnone hbefore
    have h1 := hc i hi (by simpa using hnone) (fun j hj => by simpa using hbefore j hj)
    simpa using h1

/-- Witness for C5 in a world whose second sampling attempt fails: the
build stops with exactly one node and reports the count 1. -/
theorem C5_build_node_count_witness :
    ((PRMPlannerPolygon.reset wGeo false 2 3 0).1.graph.nodes.length ≤ 3) ∧
      (1 < 3 ∧ wGeo.sample_free_robot_pose_uniform 1 = none) ∧
      ((PRMPlannerPolygon.reset wGeo false 2 3 0).1.graph.nodes.length = 1 ∧
        (PRMPlannerPolygon.reset wGeo false 2 3 0).2 = some 1) :=
  ⟨(C5_build_node_count wGeo false 2 0 3).1, ⟨by decide, by decide⟩,
    (C5_build_node_count wGeo false 2 0 3).2.2 1 (by decide) (by decide)
      (fun j hj => by interval_cases j; decide)⟩

/-- C3: when the shortest-path search reports unreachability (empty node
sequence), plan returns a Path with zero Poses and the planning-time
metric keeps its reset value 0.  The embedded plan is a total function:
no exception is raised on this outcome. -/
theorem C3_unreachable_empty_path (w : World) (st : PRMPlannerPolygon)
    (startIn goalIn : PlanInput) (dt : Int)
    (h : planWaypoints w st.max_connection_dist st.graph startIn goalIn = []) :
    (st.plan w startIn goalIn dt).2 = { poses := [] } ∧
      (st.plan w startIn goalIn dt).1.planning_time = 0 ∧
      (st.plan w startIn goalIn dt).1.latest_path = { poses := [] } := by
  rw [plan_def, if_pos h]
  exact ⟨rfl, rfl, rfl⟩

/-- Witness for C3 at a concrete unreachable query. -/
theorem C3_unreachable_empty_path_witness :
    planWaypoints wNone stE.max_connection_dist stE.graph
        (.pose { x := 0, y := 0, yaw := 0 }) (.pose { x := 1, y := 1, yaw := 0 }) = [] ∧
      ((stE.plan wNone (.pose { x := 0, y := 0, yaw := 0 })
          (.pose { x := 1, y := 1, yaw := 0 }) 7).2 = { poses := [] } ∧
        (stE.plan wNone (.pose { x := 0, y := 0, yaw := 0 })
          (.pose { x := 1, y := 1, yaw := 0 }) 7).1.planning_time = 0 ∧
        (stE.plan wNone (.pose { x := 0, y := 0, yaw := 0 })
          (.pose { x := 1, y := 1, yaw := 0 }) 7).1.latest_path = { poses := [] }) :=
  ⟨by decide, C3_unreachable_empty_path wNone stE _ _ 7 (by decide)⟩

/-- C8: requesting the unsupported grid roadmap variant makes facade
construction fail with the configuration error; no planner value is
produced and there is no fallback to the polygon variant. -/
theorem C8_grid_variant_rejected (w : World) (cfg : PRMPlannerConfig) (dtSample : Int)
    (h : cfg.grid = true) :
    PRMPlanner.init w cfg dtSample = Except.error "Grid based PRM is not supported. " ∧
      ∀ pl : PRMPlanner, PRMPlanner.init w cfg dtSample ≠ Except.ok pl := by
  unfold PRMPlanner.init
  rw [h]
  exact ⟨rfl, fun pl hc => by cases hc⟩

/-- Witness for C8 at a concrete grid configuration. -/
theorem C8_grid_variant_rejected_witness :
    cfgGrid.grid = true ∧
      PRMPlanner.init wNone cfgGrid 0 =
        Except.error "Grid based PRM is not supported. " :=
  ⟨rfl, (C8_grid_variant_rejected wNone cfgGrid 0 rfl).1⟩

/-- C10: when start and goal are passed as existing graph nodes and the
query succeeds, the start node — even though it was a pre-existing
roadmap member — is removed from the roadmap, together with all its
incident edges, before plan returns. -/
theorem C10_member_node_removed (w : World) (st : PRMPlannerPolygon) (a b : Node) (dt : Int)
    (_hmem : a ∈ st.graph.nodes)
    (h : planWaypoints w st.max_connection_dist st.graph (.node a) (.node b) ≠ []) :
    a ∉ (st.plan w (.node a) (.node b) dt).1.graph.nodes ∧
      ∀ e ∈ (st.plan w (.node a) (.node b) dt).1.graph.edges, e.1 ≠ a ∧ e.2 ≠ a := by
  rw [plan_def, if_neg h]
  constructor
  · intro hc
    have h1 := (mem_remove_node _ _ _).1 hc
    have h2 := (mem_remove_node _ _ _).1 h1.1
    exact h2.2 rfl
  · intro e he
    have h1 := (mem_remove_node_edges _ _ _).1 he
    have h2 := (mem_remove_node_edges _ _ _).1 h1.1
    exact h2.2

/-- C1 (amended): with raw-Pose inputs, after a successful query the
roadmap's node and edge sets are identical by membership to their
pre-query values; after an unreachable query the transient start and
goal nodes remain inserted, so the roadmap is not restored. -/
theorem C1_roadmap_after_query (w : World) (st : PRMPlannerPolygon) (ps pg : Pose) (dt : Int)
    (hwf : WF st.graph) :
    (planWaypoints w st.max_connection_dist st.graph (.pose ps) (.pose pg) ≠ [] →
      nodesEqMem (st.plan w (.pose ps) (.pose pg) dt).1.graph st.graph ∧
        edgesEqMem (st.plan w (.pose ps) (.pose pg) dt).1.graph st.graph) ∧
    (planWaypoints w st.max_connection_dist st.graph (.pose ps) (.pose pg) = [] →
      (st.plan w (.pose ps) (.pose pg) dt).1.graph.nodes =
        st.graph.nodes ++
          [planStart st.graph (.pose ps), planGoal st.graph (.pose ps) (.pose pg)]) := by
  constructor
  · intro h
    have hg := plan_success_graph_restored w st ps pg dt hwf h
    exact ⟨nodesEqMem_of_eq hg, edgesEqMem_of_eq hg⟩
  · intro h
    rw [plan_fail_graph w st _ _ dt h]
    exact planGraphQ_nodes_pose w st.max_connection_dist st.graph ps pg

/-- Witness for C1 at a concrete successful query. -/
theorem C1_roadmap_after_query_witness :
    WF stA.graph ∧
      nodesEqMem (stA.plan wAll (.pose { x := 0, y := 1, yaw := 0 })
          (.pose { x := 1, y := 1, yaw := 0 }) 3).1.graph stA.graph ∧
        edgesEqMem (stA.plan wAll (.pose { x := 0, y := 1, yaw := 0 })
          (.pose { x := 1, y := 1, yaw := 0 }) 3).1.graph stA.graph :=
  ⟨by decide,
    (C1_roadmap_after_query wAll stA { x := 0, y := 1, yaw := 0 }
      { x := 1, y := 1, yaw := 0 } 3 (by decide)).1 (by decide)⟩

/-- Counterexample to C1 as stated: after a query that finds no path,
the roadmap node/edge sets are not identical by membership to their
pre-query values (the leaked start and goal nodes remain). -/
theorem C1_counterexample :
    ¬ (nodesEqMem (stE.plan wNone (.pose { x := 0, y := 0, yaw := 0 })
          (.pose { x := 1, y := 1, yaw := 0 }) 7).1.graph stE.graph ∧
        edgesEqMem (stE.plan wNone (.pose { x := 0, y := 0, yaw := 0 })
          (.pose { x := 1, y := 1, yaw := 0 }) 7).1.graph stE.graph) := by
  decide

/-- C2 (amended): for queries whose start and goal are given as raw
Poses, a successful query leaves the roadmap's node and edge sets
identical by membership to their pre-query state. -/
theorem C2_success_restores (w : World) (st : PRMPlannerPolygon) (ps pg : Pose) (dt : Int)
    (hwf : WF st.graph)
    (hsucc : planWaypoints w st.max_connection_dist st.graph (.pose ps) (.pose pg) ≠ []) :
    nodesEqMem (st.plan w (.pose ps) (.pose pg) dt).1.graph st.graph ∧
      edgesEqMem (st.plan w (.pose ps) (.pose pg) dt).1.graph st.graph := by
  have hg := plan_success_graph_restored w st ps pg dt hwf hsucc
  exact ⟨nodesEqMem_of_eq hg, edgesEqMem_of_eq hg⟩

/-- Witness for C2 at a concrete successful query. -/
theorem C2_success_restores_witness :
    WF stA.graph ∧
      planWaypoints wAll stA.max_connection_dist stA.graph
        (.pose { x := 2, y := 2, yaw := 1 }) (.pose { x := 3, y := 2, yaw := 1 }) ≠ [] ∧
      (nodesEqMem (stA.plan wAll (.pose { x := 2, y := 2, yaw := 1 })
          (.pose { x := 3, y := 2, yaw := 1 }) 5).1.graph stA.graph ∧
        edgesEqMem (stA.plan wAll (.pose { x := 2, y := 2, yaw := 1 })
          (.pose { x := 3, y := 2, yaw := 1 }) 5).1.graph stA.graph) :=
  ⟨by decide, by decide,
    C2_success_restores wAll stA { x := 2, y := 2, yaw := 1 }
      { x := 3, y := 2, yaw := 1 } 5 (by decide) (by decide)⟩

/-- Counterexample to C2 as stated: a successful query whose start and
goal are pre-existing member nodes removes those members, so the node
set is not identical by membership afterwards. -/
theorem C2_counterexample :
    planWaypoints wAll stA.max_connection_dist stA.graph (.node nA1) (.node nA2) ≠ [] ∧
      ¬ (nodesEqMem (stA.plan wAll (.node nA1) (.node nA2) 3).1.graph stA.graph ∧
          edgesEqMem (stA.plan wAll (.node nA1) (.node nA2) 3).1.graph stA.graph) := by
  decide

/-- Witness for C10: a member node passed as start is gone after a
successful query. -/
theorem C10_member_node_removed_witness :
    nA1 ∈ stA.graph.nodes ∧
      planWaypoints wAll stA.max_connection_dist stA.graph (.node nA1) (.node nA2) ≠ [] ∧
      (nA1 ∉ (stA.plan wAll (.node nA1) (.node nA2) 3).1.graph.nodes ∧
        ∀ e ∈ (stA.plan wAll (.node nA1) (.node nA2) 3).1.graph.edges,
          e.1 ≠ nA1 ∧ e.2 ≠ nA1) :=
  ⟨by decide, by decide, C10_member_node_removed wAll stA nA1 nA2 3 (by decide) (by decide)⟩

end PRMSpec
